import Mathlib

/-!
Verification of the endpoint-discovery script `collect_ips.py`.

The script fetches text from a list of URLs, extracts IPv4 address tokens
(optionally carrying a `:port` suffix) with the regex
`\b\d{1,3}(?:\.\d{1,3}){3}(?::\d{1,5})?\b`, validates and deduplicates them,
TCP-probes each candidate on its explicit port or on the configured
`common_ports`, and writes the surviving `(ip, port)` pairs sorted by
`(ip string, port)`.

The development below is a shallow embedding of that script: the pure string
processing is translated function by function; the network side (HTTP fetch,
TCP connect) is abstracted by explicit outcome/probe functions, and the Python
sets (`ip_set`, `alive_ip_set`) by duplicate-free lists whose order is
immaterial downstream.
-/

namespace CollectIps

/-- Python `str.isdigit()` restricted to ASCII text (all inputs the claims
involve are ASCII): nonempty and every character a decimal digit. -/
def pyIsdigit (cs : List Char) : Bool := !cs.isEmpty && cs.all Char.isDigit

/-- Python `int(...)` applied to an all-digit string: its decimal value. -/
def natOfDigits (cs : List Char) : Nat := cs.foldl (fun a c => a * 10 + (c.toNat - 48)) 0

/-- Python `str.split(sep)` for a one-character separator: splits on every
occurrence, keeping empty groups (`"".split` gives `[""]`). -/
def splitSep (sep : Char) : List Char → List (List Char)
  | [] => [[]]
  | c :: cs =>
    if c = sep then [] :: splitSep sep cs
    else
      match splitSep sep cs with
      | [] => [[c]]
      | g :: gs => (c :: g) :: gs

/-- Python `s.split(sep, 1)` when `sep in s` is first tested: `some (l, r)`
splits at the first occurrence, `none` when the separator does not occur. -/
def splitFirst (sep : Char) : List Char → Option (List Char × List Char)
  | [] => none
  | c :: cs =>
    if c = sep then some ([], cs)
    else
      match splitFirst sep cs with
      | none => none
      | some (l, r) => some (c :: l, r)

/-- `is_valid_ip` from collect_ips.py: split on `'.'`, require exactly 4 parts,
each all-digit (`str.isdigit`) with value in [0,255].  The `n < 0` test of the
source can never fire on an all-digit string, so only the upper bound remains. -/
def is_valid_ip (ip : String) : Bool :=
  let parts := splitSep '.' ip.toList
  parts.length == 4 && parts.all (fun p => pyIsdigit p && decide (natOfDigits p ≤ 255))

/-- `parse_ip_port` from collect_ips.py: split at the first `':'` when one is
present; the address part must pass `is_valid_ip`, an all-digit port part must
parse into [1,65535]; otherwise the whole token is rejected. -/
def parse_ip_port (s : String) : Option (String × Option Nat) :=
  match splitFirst ':' s.toList with
  | some (ipcs, portcs) =>
    if !is_valid_ip ipcs.asString then none
    else if !pyIsdigit portcs then none
    else
      let port := natOfDigits portcs
      if 1 ≤ port ∧ port ≤ 65535 then some (ipcs.asString, some port) else none
  | none => if is_valid_ip s then some (s, none) else none

/-! ### The regex scan

`IP_PATTERN = r'\b\d{1,3}(?:\.\d{1,3}){3}(?::\d{1,5})?\b'` and
`re.findall(IP_PATTERN, text)`.  The pattern has no alternation beyond its
bounded greedy quantifiers, so the backtracking engine's behaviour is exactly:
enumerate the four octet widths (3 first, then 2, then 1 — later octets varied
before earlier ones) and the port alternatives (5 digits down to 1, then the
portless alternative), and take the first combination whose characters match
and whose trailing position is a word boundary.  `findall` scans left to
right, non-overlapping, resuming after each match. -/

/-- Word character for `\b` (ASCII fragment of Python's `\w`). -/
def isWordChar (c : Char) : Bool := c.isAlphanum || c = '_'

/-- `\b` to the left of position `i`: start of text or previous character not a
word character (every match starts with a digit, a word character). -/
def boundaryBefore (cs : List Char) (i : Nat) : Bool :=
  match i with
  | 0 => true
  | j + 1 =>
    match cs[j]? with
    | some c => !isWordChar c
    | none => true

/-- `\b` to the right of position `j`: end of text or next character not a word
character (every match ends with a digit, a word character). -/
def boundaryAfter (cs : List Char) (j : Nat) : Bool :=
  match cs[j]? with
  | some c => !isWordChar c
  | none => true

/-- `n` decimal digits starting at position `i`. -/
def digitsAt (cs : List Char) (i n : Nat) : Bool :=
  (List.range n).all fun k =>
    match cs[i + k]? with
    | some c => c.isDigit
    | none => false

/-- The character at position `i` is `c`. -/
def isCharAt (cs : List Char) (i : Nat) (c : Char) : Bool :=
  cs[i]? == some c

/-- One attempt of `IP_PATTERN` at position `i`: `some e` when the backtracking
engine finds a match ending (exclusively) at `e`, `none` otherwise.  Octet
widths are tried greedily (3,2,1) with the rightmost choice point backtracked
first; the optional port group prefers presence with a greedy digit count. -/
def tryMatch (cs : List Char) (i : Nat) : Option Nat :=
  if !boundaryBefore cs i then none
  else
    [3, 2, 1].findSome? fun d1 =>
      if !digitsAt cs i d1 then none
      else
        let p1 := i + d1
        [3, 2, 1].findSome? fun d2 =>
          if !(isCharAt cs p1 '.' && digitsAt cs (p1 + 1) d2) then none
          else
            let p2 := p1 + 1 + d2
            [3, 2, 1].findSome? fun d3 =>
              if !(isCharAt cs p2 '.' && digitsAt cs (p2 + 1) d3) then none
              else
                let p3 := p2 + 1 + d3
                [3, 2, 1].findSome? fun d4 =>
                  if !(isCharAt cs p3 '.' && digitsAt cs (p3 + 1) d4) then none
                  else
                    let p4 := p3 + 1 + d4
                    match [5, 4, 3, 2, 1].findSome? fun dp =>
                      if isCharAt cs p4 ':' && digitsAt cs (p4 + 1) dp &&
                          boundaryAfter cs (p4 + 1 + dp) then
                        some (p4 + 1 + dp)
                      else none with
                    | some e => some e
                    | none => if boundaryAfter cs p4 then some p4 else none

/-- The characters of positions `[i, j)`. -/
def sliceOf (cs : List Char) (i j : Nat) : List Char := (cs.drop i).take (j - i)

/-- The scan loop of `re.findall`: try a match at each position, resume after
the end of a match.  Every step advances the position by at least one, so fuel
`cs.length + 1` (supplied by `findall`) never runs out before the scan ends. -/
def findallFrom (cs : List Char) : Nat → Nat → List (List Char)
  | 0, _ => []
  | fuel + 1, i =>
    if i < cs.length then
      match tryMatch cs i with
      | some j => sliceOf cs i j :: findallFrom cs fuel (max j (i + 1))
      | none => findallFrom cs fuel (i + 1)
    else []

/-- `re.findall(IP_PATTERN, text)`: the matched substrings, left to right. -/
def findall (text : String) : List String :=
  (findallFrom text.toList (text.toList.length + 1) 0).map List.asString

/-- `extract_ips_from_text` from collect_ips.py: parse every regex match,
drop the rejects, deduplicate.  `list(set(results))` returns the distinct
results in an unspecified order; `dedup` fixes one order (the last occurrence
of each duplicate), and downstream the result is only ever merged into a set. -/
def extract_ips_from_text (text : String) : List (String × Option Nat) :=
  ((findall text).filterMap parse_ip_port).dedup

/-! ### Fetching with retries

`fetch_url(url, retry=0)` performs an HTTP GET; on success it decodes the body
and returns `extract_ips_from_text(content)`, on any exception it recurses
with `retry+1` while `retry < RETRY_LIMIT`, else returns `[]`.  The network is
abstracted by `outcome : Nat → Option String`, the decoded text produced by
attempt number `k` (`none` = the attempt raised).  The recursion is driven by
`remaining = RETRY_LIMIT - retry`, the number of retries still allowed, which
matches the source's `retry < RETRY_LIMIT` guard. -/

def RETRY_LIMIT : Nat := 2

/-- The body of `fetch_url` with `remaining` retries still allowed. -/
def fetchAux (outcome : Nat → Option String) : Nat → Nat → List (String × Option Nat)
  | retry, 0 =>
    match outcome retry with
    | some content => extract_ips_from_text content
    | none => []
  | retry, r + 1 =>
    match outcome retry with
    | some content => extract_ips_from_text content
    | none => fetchAux outcome (retry + 1) r

/-- `fetch_url(url)` as called by `fetch_and_extract_ips` (initial `retry=0`). -/
def fetch_url (outcome : Nat → Option String) : List (String × Option Nat) :=
  fetchAux outcome 0 RETRY_LIMIT

/-- Number of fetch attempts `fetchAux` performs (each entry into the `try`
block counts as one attempt). -/
def fetchAttemptsAux (outcome : Nat → Option String) : Nat → Nat → Nat
  | _, 0 => 1
  | retry, r + 1 =>
    match outcome retry with
    | some _ => 1
    | none => 1 + fetchAttemptsAux outcome (retry + 1) r

/-- Total attempts of a `fetch_url` call. -/
def fetchAttempts (outcome : Nat → Option String) : Nat :=
  fetchAttemptsAux outcome 0 RETRY_LIMIT

/-- `fetch_and_extract_ips`: one `fetch_url` per source, all extracted tuples
merged into the set `ip_set` (modelled as a dedup'd list; `as_completed`
delivers results in arbitrary order, but only membership matters below). -/
def fetch_and_extract_ips (outcomes : List (Nat → Option String)) :
    List (String × Option Nat) :=
  ((outcomes.map fetch_url).flatten).dedup

/-! ### Decoding fetched bytes

`raw_bytes.decode('utf-8', errors='ignore')` inside `fetch_url`, with an
`except` fallback to `raw_bytes.decode('iso-8859-1', errors='ignore')`.
UTF-8 decoding is modelled unit by unit: `utf8Units` yields `some c` for every
decoded scalar and `none` for every maximal invalid subpart (CPython consumes
the longest valid prefix of a multi-byte sequence, at least one byte, per
error).  `errors='ignore'` drops the `none` units — it never raises, so the
iso-8859-1 fallback of the source is unreachable. -/

/-- A UTF-8 continuation byte. -/
def contOk (b : Nat) : Bool := 0x80 ≤ b && b ≤ 0xBF

/-- UTF-8 decoding of a byte list into units: `some c` for a decoded scalar
value, `none` for each invalid subpart.  Fuel `bs.length` suffices: every step
consumes at least one byte. -/
def utf8Units : Nat → List Nat → List (Option Char)
  | 0, _ => []
  | _, [] => []
  | fuel + 1, b :: rest =>
    if b < 0x80 then some (Char.ofNat b) :: utf8Units fuel rest
    else if 0xC2 ≤ b && b ≤ 0xDF then
      match rest with
      | c1 :: rest' =>
        if contOk c1 then
          some (Char.ofNat ((b - 0xC0) * 64 + (c1 - 0x80))) :: utf8Units fuel rest'
        else none :: utf8Units fuel rest
      | [] => [none]
    else if 0xE0 ≤ b && b ≤ 0xEF then
      let lo1 := if b = 0xE0 then 0xA0 else 0x80
      let hi1 := if b = 0xED then 0x9F else 0xBF
      match rest with
      | c1 :: rest' =>
        if lo1 ≤ c1 && c1 ≤ hi1 then
          match rest' with
          | c2 :: rest'' =>
            if contOk c2 then
              some (Char.ofNat ((b - 0xE0) * 4096 + (c1 - 0x80) * 64 + (c2 - 0x80))) ::
                utf8Units fuel rest''
            else none :: utf8Units fuel rest'
          | [] => [none]
        else none :: utf8Units fuel rest
      | [] => [none]
    else if 0xF0 ≤ b && b ≤ 0xF4 then
      let lo1 := if b = 0xF0 then 0x90 else 0x80
      let hi1 := if b = 0xF4 then 0x8F else 0xBF
      match rest with
      | c1 :: rest' =>
        if lo1 ≤ c1 && c1 ≤ hi1 then
          match rest' with
          | c2 :: rest'' =>
            if contOk c2 then
              match rest'' with
              | c3 :: rest''' =>
                if contOk c3 then
                  some (Char.ofNat ((b - 0xF0) * 262144 + (c1 - 0x80) * 4096 +
                      (c2 - 0x80) * 64 + (c3 - 0x80))) :: utf8Units fuel rest'''
                else none :: utf8Units fuel rest''
              | [] => [none]
            else none :: utf8Units fuel rest'
          | [] => [none]
        else none :: utf8Units fuel rest
      | [] => [none]
    else none :: utf8Units fuel rest

/-- `raw_bytes.decode('utf-8', errors='ignore')`: invalid subparts dropped. -/
def decodeUtf8Ignore (bs : List Nat) : String :=
  ((utf8Units bs.length bs).filterMap id).asString

/-- The decode step of `fetch_url`: `errors='ignore'` is total, so the
`except` fallback to iso-8859-1 can never run and the result is always the
ignore-decoding. -/
def fetchDecode (bs : List Nat) : String := decodeUtf8Ignore bs

/-- Follows the spec's words, for comparison with `fetchDecode`: decoding that
*replaces* each undecodable subpart (with U+FFFD) rather than dropping it. -/
def decodeUtf8ReplaceSpec (bs : List Nat) : String :=
  ((utf8Units bs.length bs).map fun u => u.getD (Char.ofNat 0xFFFD)).asString

/-! ### Reachability probing

`filter_alive_ips` chooses, per candidate, the port list to check —
`common_ports` when the candidate has no port, the singleton of its own port
otherwise — and `check_ports_for_ip` probes each of those ports, collecting
the open ones.  The TCP connect (`check_port_open`) is abstracted by a probe
function `String → Nat → Bool`.  The thread pools only affect completion
order, which the sets erase. -/

def common_ports : List Nat := [443]

/-- The `ports_to_check` selection of `filter_alive_ips`. -/
def portsToCheck (port : Option Nat) : List Nat :=
  match port with
  | none => common_ports
  | some p => [p]

/-- `check_ports_for_ip`: the sub-list of `ports` the probe reports open
(`as_completed` may reorder the list; the order is never observed). -/
def check_ports_for_ip (probe : String → Nat → Bool) (ip : String) (ports : List Nat) :
    List Nat :=
  ports.filter (probe ip)

/-- The `(ip, p)` pairs one candidate appends to `alive_items`: one pair per
open port among the ports checked for it. -/
def candidateContrib (probe : String → Nat → Bool) (ip : String) (port : Option Nat) :
    List (String × Nat) :=
  (check_ports_for_ip probe ip (portsToCheck port)).map fun p => (ip, p)

/-- `filter_alive_ips`: contents of `alive_ip_set` after the reachability
phase over the candidate list (a set; modelled as a dedup'd list). -/
def filter_alive_ips (probe : String → Nat → Bool) (cands : List (String × Option Nat)) :
    List (String × Nat) :=
  (cands.flatMap fun c => candidateContrib probe c.1 c.2).dedup

/-! ### Sorted output

`get_ip_location_and_write` iterates
`sorted(alive_ip_set, key=lambda x: (x[0], x[1]))` — Python tuple comparison,
i.e. the lexicographic order on (ip string, port).  `sorted` is a stable
comparison sort; its key is the element itself, so every comparison sort
returns the same list; it is modelled with insertion sort. -/

/-- Python's `<` on strings, on the underlying character lists: lexicographic
comparison of code points. -/
def strLtB : List Char → List Char → Bool
  | [], [] => false
  | [], _ :: _ => true
  | _ :: _, [] => false
  | a :: as, b :: bs => if a < b then true else if b < a then false else strLtB as bs

/-- Python's `(x[0], x[1]) <= (y[0], y[1])` on (ip string, port) pairs. -/
def epLe (a b : String × Nat) : Prop :=
  strLtB a.1.toList b.1.toList = true ∨ (a.1 = b.1 ∧ a.2 ≤ b.2)

instance : DecidableRel epLe := fun a b => by unfold epLe; infer_instance

/-- `sorted(..., key=lambda x: (x[0], x[1]))`. -/
def pySorted (l : List (String × Nat)) : List (String × Nat) :=
  List.insertionSort epLe l

/-- The ordered endpoint list `get_ip_location_and_write` writes out: the
verified set's contents, sorted.  The argument is the insertion sequence of
`alive_ip_set`; `dedup` models the set. -/
def finalize (l : List (String × Nat)) : List (String × Nat) :=
  pySorted l.dedup

/-! ### Concrete scenario inputs -/

/-- The text every source returns in the end-to-end scenario. -/
def demoText : String := "1.2.3.4 foo 5.6.7.8:9000 1.2.3.4"

/-- A source whose every fetch attempt succeeds with `demoText`. -/
def demoOutcome : Nat → Option String := fun _ => some demoText

/-- The fake probe of the end-to-end scenario: 1.2.3.4:443 and 5.6.7.8:9000
are open, every other (address, port) is closed. -/
def demoProbe (ip : String) (port : Nat) : Bool :=
  (ip == "1.2.3.4" && port == 443) || (ip == "5.6.7.8" && port == 9000)

/-- The packed 32-bit value of a dotted-decimal string (the spec's canonical
numeric form), used to state that two accepted tokens denote the same
4-octet value. -/
def packedValue (s : String) : Nat :=
  match splitSep '.' s.toList with
  | [a, b, c, d] =>
    ((natOfDigits a * 256 + natOfDigits b) * 256 + natOfDigits c) * 256 + natOfDigits d
  | _ => 0

/-- A token of four dot-separated groups, as a character list. -/
def mkAddr (g1 g2 g3 g4 : List Char) : List Char :=
  g1 ++ '.' :: (g2 ++ '.' :: (g3 ++ '.' :: g4))

/-- An address token followed by `':'` and a port group. -/
def mkToken (g1 g2 g3 g4 p : List Char) : List Char :=
  mkAddr g1 g2 g3 g4 ++ ':' :: p

end CollectIps

namespace CollectIps

/-- C10: on `"1.2.3.4:999999"` the six-digit port cannot satisfy the regex's
trailing word boundary, so the engine backtracks to the portless alternative:
extraction yields exactly the portless candidate `("1.2.3.4", none)` — the
oversized port is silently dropped at the extraction stage rather than the
whole token being discarded. -/
theorem extract_oversized_port_backtracks :
    extract_ips_from_text "1.2.3.4:999999" = [("1.2.3.4", none)] := by
  decide

/-- C9 counterexample: `"1.2.3.4"` and `"01.2.3.4"` are two accepted tokens
with the same packed 32-bit value and the same (absent) port, yet extraction
keeps them as two distinct candidates — they are not collapsed, so
deduplication is not by canonical dotted-decimal or packed numeric value. -/
theorem extract_leading_zero_not_collapsed :
    packedValue "1.2.3.4" = packedValue "01.2.3.4" ∧
    ("1.2.3.4", (none : Option Nat)) ∈ extract_ips_from_text "1.2.3.4 01.2.3.4" ∧
    ("01.2.3.4", (none : Option Nat)) ∈ extract_ips_from_text "1.2.3.4 01.2.3.4" ∧
    (extract_ips_from_text "1.2.3.4 01.2.3.4").length = 2 := by
  decide

/-- C9 amended: candidate identity is the exact (token string, port-or-absent)
pair, so two accepted tokens denoting the same numeric address but spelled
differently (a leading-zero form) stay distinct in the candidate set. -/
theorem extract_dedups_by_token_string :
    extract_ips_from_text "1.2.3.4 01.2.3.4" = [("1.2.3.4", none), ("01.2.3.4", none)] := by
  decide

/-- C7 counterexample: on the fetched bytes `[0x41, 0xFF, 0x42]` the decode
step of `fetch_url` (`errors='ignore'`) yields `"AB"`: the undecodable byte is
dropped, not replaced — unlike the replacing decoder the spec describes. -/
theorem fetchDecode_drops_invalid_byte :
    fetchDecode [0x41, 0xFF, 0x42] = "AB" ∧
    decodeUtf8ReplaceSpec [0x41, 0xFF, 0x42] = "A\uFFFDB" ∧
    fetchDecode [0x41, 0xFF, 0x42] ≠ decodeUtf8ReplaceSpec [0x41, 0xFF, 0x42] := by
  decide

/-- C1: end-to-end pipeline on the demo scenario.  Three sources all yield
`demoText`; discovery produces exactly the candidates `("1.2.3.4", no port)`
and `("5.6.7.8", 9000)` (the concrete list is `dedup`'s last-occurrence
order); with default ports `[443]` and `demoProbe`, the final ordered output
is exactly `[("1.2.3.4", 443), ("5.6.7.8", 9000)]`. -/
theorem end_to_end_pipeline :
    fetch_and_extract_ips [demoOutcome, demoOutcome, demoOutcome] =
      [("5.6.7.8", some 9000), ("1.2.3.4", none)] ∧
    (∀ c, c ∈ fetch_and_extract_ips [demoOutcome, demoOutcome, demoOutcome] ↔
      c = ("1.2.3.4", (none : Option Nat)) ∨ c = ("5.6.7.8", some 9000)) ∧
    finalize (filter_alive_ips demoProbe
        (fetch_and_extract_ips [demoOutcome, demoOutcome, demoOutcome])) =
      [("1.2.3.4", 443), ("5.6.7.8", 9000)] := by
  have h : fetch_and_extract_ips [demoOutcome, demoOutcome, demoOutcome] =
      [("5.6.7.8", some 9000), ("1.2.3.4", none)] := by decide
  refine ⟨h, fun c => ?_, by decide⟩
  rw [h]
  simp only [List.mem_cons, List.not_mem_nil, or_false]
  tauto

/-! ### The output order (C5) -/

theorem strLtB_irrefl (l : List Char) : strLtB l l = false := by
  induction l with
  | nil => rfl
  | cons c cs ih => simp [strLtB, lt_irrefl, ih]

theorem strLtB_asymm : ∀ {a b : List Char}, strLtB a b = true → strLtB b a = false
  | [], [], h => by simp [strLtB] at h
  | [], _ :: _, _ => rfl
  | _ :: _, [], h => by simp [strLtB] at h
  | x :: xs, y :: ys, h => by
    unfold strLtB at h ⊢
    rcases lt_trichotomy x y with hxy | hxy | hxy
    · simp [hxy, lt_asymm hxy]
    · subst hxy
      simp only [lt_irrefl, if_false] at h ⊢
      exact strLtB_asymm h
    · simp [hxy, lt_asymm hxy] at h

theorem strLtB_eq_of_not_lt :
    ∀ {a b : List Char}, strLtB a b = false → strLtB b a = false → a = b
  | [], [], _, _ => rfl
  | [], _ :: _, h, _ => by simp [strLtB] at h
  | _ :: _, [], _, h' => by simp [strLtB] at h'
  | x :: xs, y :: ys, h, h' => by
    unfold strLtB at h h'
    rcases lt_trichotomy x y with hxy | hxy | hxy
    · simp [hxy] at h
    · subst hxy
      simp only [lt_irrefl, if_false] at h h'
      rw [strLtB_eq_of_not_lt h h']
    · simp [hxy] at h'

theorem strLtB_trans :
    ∀ {a b c : List Char}, strLtB a b = true → strLtB b c = true → strLtB a c = true
  | [], _, _ :: _, _, _ => rfl
  | [], b, [], _, h' => by cases b <;> simp [strLtB] at h'
  | _ :: _, [], _, h, _ => by simp [strLtB] at h
  | _ :: _, _ :: _, [], _, h' => by simp [strLtB] at h'
  | x :: xs, y :: ys, z :: zs, h, h' => by
    unfold strLtB at h h' ⊢
    rcases lt_trichotomy x y with hxy | hxy | hxy
    · rcases lt_trichotomy y z with hyz | hyz | hyz
      · simp [lt_trans hxy hyz]
      · subst hyz; simp [hxy]
      · simp [hyz, lt_asymm hyz] at h'
    · subst hxy
      rcases lt_trichotomy x z with hxz | hxz | hxz
      · simp [hxz]
      · subst hxz
        simp only [lt_irrefl, if_false] at h h' ⊢
        exact strLtB_trans h h'
      · simp [hxz, lt_asymm hxz] at h'
    · simp [hxy, lt_asymm hxy] at h

instance : IsTrans (String × Nat) epLe where
  trans a b c hab hbc := by
    rcases hab with h | ⟨he, hp⟩ <;> rcases hbc with h' | ⟨he', hp'⟩
    · exact Or.inl (strLtB_trans h h')
    · exact Or.inl (he' ▸ h)
    · exact Or.inl (he ▸ h')
    · exact Or.inr ⟨he.trans he', le_trans hp hp'⟩

instance : IsTotal (String × Nat) epLe where
  total a b := by
    cases hab : strLtB a.1.toList b.1.toList with
    | true => exact Or.inl (Or.inl hab)
    | false =>
      cases hba : strLtB b.1.toList a.1.toList with
      | true => exact Or.inr (Or.inl hba)
      | false =>
        have he : a.1 = b.1 := String.toList_inj.mp (strLtB_eq_of_not_lt hab hba)
        rcases le_total a.2 b.2 with hp | hp
        · exact Or.inl (Or.inr ⟨he, hp⟩)
        · exact Or.inr (Or.inr ⟨he.symm, hp⟩)

instance : IsAntisymm (String × Nat) epLe where
  antisymm a b hab hba := by
    obtain ⟨a1, a2⟩ := a
    obtain ⟨b1, b2⟩ := b
    rcases hab with h | ⟨he, hp⟩ <;> rcases hba with h' | ⟨he', hp'⟩
    · rw [strLtB_asymm h] at h'
      exact Bool.noConfusion h'
    · cases he'
      rw [strLtB_irrefl] at h
      exact Bool.noConfusion h
    · cases he
      rw [strLtB_irrefl] at h'
      exact Bool.noConfusion h'
    · cases he
      cases le_antisymm hp hp'
      rfl

/-- C5: for every verified set the output list holds exactly the set's
endpoints and is sorted by (address string ascending, port ascending) — the
order `epLe` — finalization is a function of the set's contents only
(permuting the insertion sequence never changes the output), and on the three
endpoints of the scenario every insertion order yields the sorted sequence. -/
theorem finalize_deterministic :
    (∀ l : List (String × Nat), (finalize l).Sorted epLe ∧ (finalize l).Perm l.dedup) ∧
    (∀ l1 l2 : List (String × Nat), l1.Perm l2 → finalize l1 = finalize l2) ∧
    (∀ l : List (String × Nat),
      l.Perm [("2.2.2.2", 80), ("1.1.1.1", 443), ("1.1.1.1", 80)] →
      finalize l = [("1.1.1.1", 80), ("1.1.1.1", 443), ("2.2.2.2", 80)]) := by
  have key : ∀ l1 l2 : List (String × Nat), l1.Perm l2 → finalize l1 = finalize l2 := by
    intro l1 l2 h
    exact List.eq_of_perm_of_sorted
      ((List.perm_insertionSort epLe _).trans
        (h.dedup.trans (List.perm_insertionSort epLe _).symm))
      (List.sorted_insertionSort epLe _) (List.sorted_insertionSort epLe _)
  refine ⟨fun l => ⟨List.sorted_insertionSort epLe _, List.perm_insertionSort epLe _⟩,
    key, fun l h => ?_⟩
  rw [key l _ h]
  decide

/-- Witness for C5 at one concrete insertion order. -/
theorem finalize_deterministic_witness :
    ([("1.1.1.1", 443), ("1.1.1.1", 80), ("2.2.2.2", 80)] : List (String × Nat)).Perm
        [("2.2.2.2", 80), ("1.1.1.1", 443), ("1.1.1.1", 80)] ∧
    finalize [("1.1.1.1", 443), ("1.1.1.1", 80), ("2.2.2.2", 80)] =
      [("1.1.1.1", 80), ("1.1.1.1", 443), ("2.2.2.2", 80)] :=
  ⟨by decide, finalize_deterministic.2.2 _ (by decide)⟩

/-- C3: a candidate with explicit port `P` has exactly `[P]` as its port set to
probe; a candidate without port has exactly `common_ports`, which is `[443]`;
and every verified pair the reachability phase ever produces stems from a port
in its own candidate's probed set — no other port is attempted. -/
theorem portsToCheck_exact :
    (∀ P : Nat, portsToCheck (some P) = [P]) ∧
    (portsToCheck none = common_ports ∧ common_ports = [443]) ∧
    (∀ (probe : String → Nat → Bool) (cands : List (String × Option Nat))
        (ip : String) (p : Nat),
      (ip, p) ∈ filter_alive_ips probe cands →
      ∃ c ∈ cands, c.1 = ip ∧ p ∈ portsToCheck c.2) := by
  refine ⟨fun P => rfl, ⟨rfl, rfl⟩, ?_⟩
  intro probe cands ip p hmem
  rw [filter_alive_ips, List.mem_dedup, List.mem_flatMap] at hmem
  obtain ⟨c, hc, hcm⟩ := hmem
  rw [candidateContrib, List.mem_map] at hcm
  obtain ⟨q, hq, heq⟩ := hcm
  have h1 : c.1 = ip := congrArg Prod.fst heq
  have h2 : q = p := congrArg Prod.snd heq
  subst h1
  subst h2
  rw [check_ports_for_ip] at hq
  exact ⟨c, hc, rfl, (List.mem_filter.mp hq).1⟩

/-- Witness for C3 on a one-candidate list with an always-open probe. -/
theorem portsToCheck_exact_witness :
    ("9.9.9.9", 70) ∈ filter_alive_ips (fun _ _ => true) [("9.9.9.9", some 70)] ∧
    ∃ c ∈ [("9.9.9.9", (some 70 : Option Nat))], c.1 = "9.9.9.9" ∧ 70 ∈ portsToCheck c.2 :=
  ⟨by decide, portsToCheck_exact.2.2 (fun _ _ => true) _ _ _ (by decide)⟩

/-- C4: a candidate whose probed port set has `k` ports reported open
contributes exactly `k` pairs — one `(address, openPort)` per open port — and
a candidate with zero open ports contributes the empty list (no error). -/
theorem candidateContrib_open_ports :
    ∀ (probe : String → Nat → Bool) (ip : String) (port : Option Nat),
      (candidateContrib probe ip port).length
          = (portsToCheck port).countP (fun p => probe ip p) ∧
      (∀ q : Nat, (ip, q) ∈ candidateContrib probe ip port ↔
        q ∈ portsToCheck port ∧ probe ip q = true) ∧
      ((∀ q ∈ portsToCheck port, probe ip q = false) →
        candidateContrib probe ip port = []) := by
  intro probe ip port
  refine ⟨?_, ?_, ?_⟩
  · rw [candidateContrib, check_ports_for_ip, List.length_map,
      ← List.countP_eq_length_filter]
  · intro q
    rw [candidateContrib, check_ports_for_ip]
    constructor
    · intro hm
      obtain ⟨x, hx, heq⟩ := List.mem_map.mp hm
      have h2 : x = q := congrArg Prod.snd heq
      subst h2
      exact ⟨(List.mem_filter.mp hx).1, (List.mem_filter.mp hx).2⟩
    · intro ⟨hq1, hq2⟩
      exact List.mem_map.mpr ⟨q, List.mem_filter.mpr ⟨hq1, hq2⟩, rfl⟩
  · intro h
    rw [candidateContrib, check_ports_for_ip]
    rw [List.filter_eq_nil_iff.mpr (fun a ha => by simp [h a ha])]
    rfl

/-- Witness for C4: an all-closed probe contributes nothing. -/
theorem candidateContrib_open_ports_witness :
    (∀ q ∈ portsToCheck none, (fun _ _ => false : String → Nat → Bool) "1.1.1.1" q = false) ∧
    candidateContrib (fun _ _ => false) "1.1.1.1" none = [] :=
  ⟨fun _ _ => rfl,
   (candidateContrib_open_ports (fun _ _ => false) "1.1.1.1" none).2.2 (fun _ _ => rfl)⟩

/-- C8: extraction never yields two candidates of the same (address, port)
identity — its result is duplicate-free with the same members as the raw
parsed match list — and a text with no regex match extracts to the empty
list. -/
theorem extract_dedup_and_empty :
    ∀ text : String,
      (extract_ips_from_text text).Nodup ∧
      (∀ c, c ∈ extract_ips_from_text text ↔ c ∈ (findall text).filterMap parse_ip_port) ∧
      (findall text = [] → extract_ips_from_text text = []) := by
  intro text
  refine ⟨List.nodup_dedup _, fun c => List.mem_dedup, fun h => ?_⟩
  rw [extract_ips_from_text, h]
  rfl

/-- Witness for C8: a duplicated token collapses, a matchless text is empty. -/
theorem extract_dedup_and_empty_witness :
    (extract_ips_from_text "8.8.8.8 8.8.8.8 8.8.8.8").Nodup ∧
    findall "no address here" = [] ∧
    extract_ips_from_text "no address here" = [] :=
  ⟨(extract_dedup_and_empty "8.8.8.8 8.8.8.8 8.8.8.8").1, by decide,
   (extract_dedup_and_empty "no address here").2.2 (by decide)⟩

/-! ### Retry behaviour (C6) -/

theorem fetchAttemptsAux_le (outcome : Nat → Option String) :
    ∀ r retry : Nat, fetchAttemptsAux outcome retry r ≤ r + 1 := by
  intro r
  induction r with
  | zero => intro retry; rw [fetchAttemptsAux]
  | succ r ih =>
    intro retry
    cases h : outcome retry with
    | some c => simp [fetchAttemptsAux, h]
    | none =>
      have := ih (retry + 1)
      simp only [fetchAttemptsAux, h]
      omega

theorem fetchAux_all_fail (outcome : Nat → Option String) :
    ∀ r retry : Nat, (∀ k, retry ≤ k → k ≤ retry + r → outcome k = none) →
      fetchAux outcome retry r = [] ∧ fetchAttemptsAux outcome retry r = r + 1 := by
  intro r
  induction r with
  | zero =>
    intro retry h
    have h0 := h retry le_rfl (by omega)
    simp [fetchAux, fetchAttemptsAux, h0]
  | succ r ih =>
    intro retry h
    have h0 := h retry le_rfl (by omega)
    have hrec := ih (retry + 1) (fun k hk1 hk2 => h k (by omega) (by omega))
    refine ⟨?_, ?_⟩
    · simp [fetchAux, h0, hrec.1]
    · simp [fetchAttemptsAux, h0, hrec.2]
      omega

theorem fetchAux_first_success (outcome : Nat → Option String) :
    ∀ (r retry k : Nat) (content : String),
      retry ≤ k → k ≤ retry + r → outcome k = some content →
      (∀ j, retry ≤ j → j < k → outcome j = none) →
      fetchAux outcome retry r = extract_ips_from_text content ∧
      fetchAttemptsAux outcome retry r = (k - retry) + 1 := by
  intro r
  induction r with
  | zero =>
    intro retry k content hk1 hk2 hks _
    have hk : k = retry := by omega
    subst hk
    simp [fetchAux, fetchAttemptsAux, hks]
  | succ r ih =>
    intro retry k content hk1 hk2 hks hmin
    by_cases hk : k = retry
    · subst hk
      simp [fetchAux, fetchAttemptsAux, hks]
    · have hlt : retry < k := by omega
      have h0 : outcome retry = none := hmin retry le_rfl hlt
      have hrec := ih (retry + 1) k content (by omega) (by omega) hks
        (fun j hj1 hj2 => hmin j (by omega) hj2)
      constructor
      · simp [fetchAux, h0, hrec.1]
      · simp only [fetchAttemptsAux, h0, hrec.2]
        omega

/-- C6: every fetch performs at most `RETRY_LIMIT + 1 = 3` attempts; when all
attempts fail it returns the empty contribution after exactly
`RETRY_LIMIT + 1` attempts; an attempt that succeeds — the first to do so,
even the last allowed one — returns its extraction immediately (`k + 1` total
attempts, no further retries); and a source whose every attempt fails changes
nothing in the merged discovery result. -/
theorem fetch_url_retry_behaviour :
    (∀ outcome : Nat → Option String, fetchAttempts outcome ≤ RETRY_LIMIT + 1) ∧
    (∀ outcome : Nat → Option String,
      (∀ k, k ≤ RETRY_LIMIT → outcome k = none) →
      fetch_url outcome = [] ∧ fetchAttempts outcome = RETRY_LIMIT + 1) ∧
    (∀ (outcome : Nat → Option String) (k : Nat) (content : String),
      k ≤ RETRY_LIMIT → outcome k = some content → (∀ j, j < k → outcome j = none) →
      fetch_url outcome = extract_ips_from_text content ∧
      fetchAttempts outcome = k + 1) ∧
    (∀ (bad : Nat → Option String) (rest : List (Nat → Option String)),
      (∀ k, k ≤ RETRY_LIMIT → bad k = none) →
      fetch_and_extract_ips (bad :: rest) = fetch_and_extract_ips rest) := by
  refine ⟨?_, ?_, ?_, ?_⟩
  · intro outcome
    exact fetchAttemptsAux_le outcome RETRY_LIMIT 0
  · intro outcome h
    exact fetchAux_all_fail outcome RETRY_LIMIT 0 (fun k _ hk2 => h k (by simpa using hk2))
  · intro outcome k content hk hks hmin
    have h := fetchAux_first_success outcome RETRY_LIMIT 0 k content (Nat.zero_le k)
      (by simpa using hk) hks (fun j _ hj => hmin j hj)
    simpa using h
  · intro bad rest h
    have hbad : fetch_url bad = [] :=
      (fetchAux_all_fail bad RETRY_LIMIT 0 (fun k _ hk2 => h k (by simpa using hk2))).1
    rw [fetch_and_extract_ips, fetch_and_extract_ips, List.map_cons, List.flatten_cons, hbad]
    rfl

/-- Witness for C6: an always-failing source and a source succeeding on its
final allowed attempt. -/
theorem fetch_url_retry_behaviour_witness :
    (fetch_url (fun _ => none) = [] ∧ fetchAttempts (fun _ => none) = 3) ∧
    (fetch_url (fun k => if k == 2 then some "7.7.7.7:443 x" else none) =
        extract_ips_from_text "7.7.7.7:443 x" ∧
      fetchAttempts (fun k => if k == 2 then some "7.7.7.7:443 x" else none) = 3) := by
  have h1 := fetch_url_retry_behaviour.2.1 (fun _ => none) (fun k _ => rfl)
  have h2 := fetch_url_retry_behaviour.2.2.1
    (fun k => if k == 2 then some "7.7.7.7:443 x" else none) 2 "7.7.7.7:443 x"
    (by decide) rfl (fun j hj => by interval_cases j <;> rfl)
  exact ⟨⟨h1.1, h1.2⟩, ⟨h2.1, h2.2⟩⟩

/-! ### Decoding (C7 amended) -/

theorem utf8Units_ascii :
    ∀ (bs : List Nat) (fuel : Nat), bs.length ≤ fuel → (∀ b ∈ bs, b < 128) →
      utf8Units fuel bs = bs.map (fun b => some (Char.ofNat b)) := by
  intro bs
  induction bs with
  | nil => intro fuel _ _; cases fuel <;> rfl
  | cons b rest ih =>
    intro fuel hlen hb
    cases fuel with
    | zero => simp at hlen
    | succ f =>
      have hb0 : b < 128 := hb b (List.mem_cons_self ..)
      simp only [utf8Units]
      rw [if_pos hb0, ih f (by simpa using hlen) (fun x hx => hb x (List.mem_cons_of_mem _ hx))]
      rfl

theorem filterMap_id_map_some (l : List Nat) :
    (l.map (fun b => some (Char.ofNat b))).filterMap id = l.map (fun b => Char.ofNat b) := by
  induction l with
  | nil => rfl
  | cons b rest ih => simp [ih]

/-- C7 amended: the decode step of `fetch_url` never raises and always yields
a text — it is UTF-8 decoding with `errors='ignore'`, which *drops* each
undecodable subpart (one dropped unit per subpart) rather than replacing it;
on a pure-ASCII body it decodes every byte.  Since `errors='ignore'` cannot
raise, the source's iso-8859-1 fallback branch is unreachable. -/
theorem fetchDecode_total_ignore :
    ∀ bs : List Nat,
      fetchDecode bs = decodeUtf8Ignore bs ∧
      (decodeUtf8Ignore bs).toList = (utf8Units bs.length bs).filterMap id ∧
      ((∀ b ∈ bs, b < 128) →
        fetchDecode bs = (bs.map (fun b => Char.ofNat b)).asString) := by
  intro bs
  refine ⟨rfl, rfl, fun h => ?_⟩
  rw [fetchDecode, decodeUtf8Ignore, utf8Units_ascii bs bs.length le_rfl h,
    filterMap_id_map_some]

/-- Witness for C7's amended statement on the ASCII body `"Hi"`. -/
theorem fetchDecode_total_ignore_witness :
    (∀ b ∈ [72, 105], b < 128) ∧
    fetchDecode [72, 105] = ([72, 105].map (fun b => Char.ofNat b)).asString :=
  ⟨by decide, (fetchDecode_total_ignore [72, 105]).2.2 (by decide)⟩

/-! ### The parser on well-shaped tokens (C2) -/

theorem splitSep_not_mem {sep : Char} {l : List Char} (h : sep ∉ l) :
    splitSep sep l = [l] := by
  induction l with
  | nil => rfl
  | cons c cs ih =>
    have hc : ¬(c = sep) := fun hc => h (hc ▸ List.mem_cons_self ..)
    simp only [splitSep, if_neg hc, ih (fun hm => h (List.mem_cons_of_mem _ hm))]

theorem splitSep_append {sep : Char} {l r : List Char} (h : sep ∉ l) :
    splitSep sep (l ++ sep :: r) = l :: splitSep sep r := by
  induction l with
  | nil => simp [splitSep]
  | cons c cs ih =>
    have hc : ¬(c = sep) := fun hc => h (hc ▸ List.mem_cons_self ..)
    simp [splitSep, hc, ih (fun hm => h (List.mem_cons_of_mem _ hm))]

theorem splitFirst_not_mem {sep : Char} {l : List Char} (h : sep ∉ l) :
    splitFirst sep l = none := by
  induction l with
  | nil => rfl
  | cons c cs ih =>
    have hc : ¬(c = sep) := fun hc => h (hc ▸ List.mem_cons_self ..)
    simp only [splitFirst, if_neg hc, ih (fun hm => h (List.mem_cons_of_mem _ hm))]

theorem splitFirst_append {sep : Char} {l r : List Char} (h : sep ∉ l) :
    splitFirst sep (l ++ sep :: r) = some (l, r) := by
  induction l with
  | nil => simp [splitFirst]
  | cons c cs ih =>
    have hc : ¬(c = sep) := fun hc => h (hc ▸ List.mem_cons_self ..)
    simp [splitFirst, hc, ih (fun hm => h (List.mem_cons_of_mem _ hm))]

theorem not_mem_of_all_digit {g : List Char} {c : Char}
    (hg : g.all Char.isDigit = true) (hc : c.isDigit = false) : c ∉ g := by
  intro hm
  have ht := List.all_eq_true.mp hg c hm
  rw [hc] at ht
  exact Bool.noConfusion ht

theorem colon_not_mem_mkAddr {g1 g2 g3 g4 : List Char}
    (h1 : g1.all Char.isDigit = true) (h2 : g2.all Char.isDigit = true)
    (h3 : g3.all Char.isDigit = true) (h4 : g4.all Char.isDigit = true) :
    ':' ∉ mkAddr g1 g2 g3 g4 := by
  intro hm
  rw [mkAddr] at hm
  simp only [List.mem_append, List.mem_cons] at hm
  rcases hm with h | h | h | h | h | h | h
  · exact not_mem_of_all_digit h1 (by decide) h
  · exact absurd h (by decide)
  · exact not_mem_of_all_digit h2 (by decide) h
  · exact absurd h (by decide)
  · exact not_mem_of_all_digit h3 (by decide) h
  · exact absurd h (by decide)
  · exact not_mem_of_all_digit h4 (by decide) h

theorem pyIsdigit_true {g : List Char} (hne : g ≠ []) (hd : g.all Char.isDigit = true) :
    pyIsdigit g = true := by
  cases g with
  | nil => exact absurd rfl hne
  | cons c cs => simpa [pyIsdigit] using hd

theorem is_valid_ip_mkAddr {g1 g2 g3 g4 : List Char}
    (n1 : g1 ≠ []) (h1 : g1.all Char.isDigit = true)
    (n2 : g2 ≠ []) (h2 : g2.all Char.isDigit = true)
    (n3 : g3 ≠ []) (h3 : g3.all Char.isDigit = true)
    (n4 : g4 ≠ []) (h4 : g4.all Char.isDigit = true) :
    is_valid_ip (mkAddr g1 g2 g3 g4).asString = true ↔
      natOfDigits g1 ≤ 255 ∧ natOfDigits g2 ≤ 255 ∧
        natOfDigits g3 ≤ 255 ∧ natOfDigits g4 ≤ 255 := by
  rw [is_valid_ip]
  rw [show (mkAddr g1 g2 g3 g4).asString.toList = mkAddr g1 g2 g3 g4 from rfl]
  rw [mkAddr,
    splitSep_append (not_mem_of_all_digit h1 (by decide)),
    splitSep_append (not_mem_of_all_digit h2 (by decide)),
    splitSep_append (not_mem_of_all_digit h3 (by decide)),
    splitSep_not_mem (not_mem_of_all_digit h4 (by decide))]
  simp [pyIsdigit_true n1 h1, pyIsdigit_true n2 h2, pyIsdigit_true n3 h3,
    pyIsdigit_true n4 h4]

/-- C2: a token of exactly 4 dot-separated all-digit groups, optionally
followed by `':'` and an all-digit port, is accepted by `parse_ip_port` as the
pair of the address string and the parsed port — exactly when every octet is
in [0,255] and the port (when present) is in [1,65535]; any numeric-bound
violation rejects the whole token (no truncation). -/
theorem parse_ip_port_bounds (g1 g2 g3 g4 p : List Char)
    (n1 : g1 ≠ []) (h1 : g1.all Char.isDigit = true)
    (n2 : g2 ≠ []) (h2 : g2.all Char.isDigit = true)
    (n3 : g3 ≠ []) (h3 : g3.all Char.isDigit = true)
    (n4 : g4 ≠ []) (h4 : g4.all Char.isDigit = true)
    (np : p ≠ []) (hp : p.all Char.isDigit = true) :
    (natOfDigits g1 ≤ 255 ∧ natOfDigits g2 ≤ 255 ∧
        natOfDigits g3 ≤ 255 ∧ natOfDigits g4 ≤ 255 →
      parse_ip_port (mkAddr g1 g2 g3 g4).asString =
        some ((mkAddr g1 g2 g3 g4).asString, none) ∧
      (1 ≤ natOfDigits p → natOfDigits p ≤ 65535 →
        parse_ip_port (mkToken g1 g2 g3 g4 p).asString =
          some ((mkAddr g1 g2 g3 g4).asString, some (natOfDigits p)))) ∧
    (¬(natOfDigits g1 ≤ 255 ∧ natOfDigits g2 ≤ 255 ∧
        natOfDigits g3 ≤ 255 ∧ natOfDigits g4 ≤ 255) →
      parse_ip_port (mkAddr g1 g2 g3 g4).asString = none ∧
      parse_ip_port (mkToken g1 g2 g3 g4 p).asString = none) ∧
    (natOfDigits p < 1 ∨ 65535 < natOfDigits p →
      parse_ip_port (mkToken g1 g2 g3 g4 p).asString = none) := by
  have hColon : ':' ∉ mkAddr g1 g2 g3 g4 := colon_not_mem_mkAddr h1 h2 h3 h4
  have hvalid := is_valid_ip_mkAddr n1 h1 n2 h2 n3 h3 n4 h4
  have eAddr : parse_ip_port (mkAddr g1 g2 g3 g4).asString =
      if is_valid_ip (mkAddr g1 g2 g3 g4).asString then
        some ((mkAddr g1 g2 g3 g4).asString, none)
      else none := by
    rw [parse_ip_port]
    rw [show (mkAddr g1 g2 g3 g4).asString.toList = mkAddr g1 g2 g3 g4 from rfl]
    rw [splitFirst_not_mem hColon]
  have eTok : parse_ip_port (mkToken g1 g2 g3 g4 p).asString =
      if !is_valid_ip (mkAddr g1 g2 g3 g4).asString then none
      else if !pyIsdigit p then none
      else if 1 ≤ natOfDigits p ∧ natOfDigits p ≤ 65535 then
        some ((mkAddr g1 g2 g3 g4).asString, some (natOfDigits p))
      else none := by
    rw [parse_ip_port]
    rw [show (mkToken g1 g2 g3 g4 p).asString.toList =
      mkAddr g1 g2 g3 g4 ++ ':' :: p from rfl]
    rw [splitFirst_append hColon]
  refine ⟨fun hoct => ?_, fun hoct => ?_, fun hrange => ?_⟩
  · have hv : is_valid_ip (mkAddr g1 g2 g3 g4).asString = true := hvalid.mpr hoct
    refine ⟨by rw [eAddr, if_pos hv], fun hp1 hp2 => ?_⟩
    rw [eTok, hv, pyIsdigit_true np hp]
    simp only [Bool.not_true, Bool.false_eq_true, if_false]
    rw [if_pos ⟨hp1, hp2⟩]
  · have hv : is_valid_ip (mkAddr g1 g2 g3 g4).asString = false :=
      Bool.eq_false_iff.mpr (fun ht => hoct (hvalid.mp ht))
    constructor
    · rw [eAddr, hv]
      rfl
    · rw [eTok, hv]
      rfl
  · rw [eTok]
    rcases hb : is_valid_ip (mkAddr g1 g2 g3 g4).asString with _ | _
    · rfl
    · rw [pyIsdigit_true np hp]
      simp only [Bool.not_true, Bool.false_eq_true, if_false]
      rw [if_neg (fun hc => by rcases hrange with hr | hr <;> omega)]

/-- Witness for C2: an in-range token is accepted verbatim; an octet above 255
or a port above 65535 rejects the whole token. -/
theorem parse_ip_port_bounds_witness :
    parse_ip_port "1.2.3.4:80" = some ("1.2.3.4", some 80) ∧
    parse_ip_port "999.1.1.1" = none ∧
    parse_ip_port "1.2.3.4:70000" = none := by
  have hmain := parse_ip_port_bounds ['1'] ['2'] ['3'] ['4'] ['8', '0']
    (by decide) (by decide) (by decide) (by decide) (by decide)
    (by decide) (by decide) (by decide) (by decide) (by decide)
  have hbad := parse_ip_port_bounds ['9', '9', '9'] ['1'] ['1'] ['1'] ['1']
    (by decide) (by decide) (by decide) (by decide) (by decide)
    (by decide) (by decide) (by decide) (by decide) (by decide)
  have hport := parse_ip_port_bounds ['1'] ['2'] ['3'] ['4'] ['7', '0', '0', '0', '0']
    (by decide) (by decide) (by decide) (by decide) (by decide)
    (by decide) (by decide) (by decide) (by decide) (by decide)
  refine ⟨?_, ?_, ?_⟩
  · have h := (hmain.1 (by decide)).2 (by decide) (by decide)
    have e : ("1.2.3.4:80" : String) = (mkToken ['1'] ['2'] ['3'] ['4'] ['8', '0']).asString :=
      by decide
    rw [e, h]
    decide
  · have h := (hbad.2.1 (by decide)).1
    have e : ("999.1.1.1" : String) = (mkAddr ['9', '9', '9'] ['1'] ['1'] ['1']).asString :=
      by decide
    rw [e, h]
  · have h := hport.2.2 (by decide)
    have e : ("1.2.3.4:70000" : String) =
        (mkToken ['1'] ['2'] ['3'] ['4'] ['7', '0', '0', '0', '0']).asString := by decide
    rw [e, h]

end CollectIps
